import Mathlib

/-!
Verification of the rich-text-editor-wasm TypeScript core against its
natural-language specification.

Strings of the TypeScript source are embedded as `List Char`.  The
`RichTextEditor` facade (packages/core/src/core/RichTextEditor.ts), the
security utilities (utils/security.ts) and the WASM module manager
(utils/wasmManager.ts) are translated directly from their sources.  The
Rust/WASM document core (`WasmDocument`) ships only as a compiled binary in
this repository; its behaviour is modelled from the specification where a
claim depends on it, as flagged in each doc comment.
-/

namespace RTE

/-- A JS string, embedded as its list of characters. -/
abbrev JStr := List Char

/-- Characters of a Lean string literal, for writing embedded JS strings. -/
def strL (s : String) : JStr := s.data

/-- Embeds `String.prototype.trim`: drop whitespace from both ends. -/
def trimList (l : JStr) : JStr :=
  ((l.dropWhile Char.isWhitespace).reverse.dropWhile Char.isWhitespace).reverse

/-- Embeds `String.prototype.toLowerCase` (ASCII suffices for the checks below). -/
def lowerList (l : JStr) : JStr := l.map Char.toLower

/-! ## utils/security.ts -/

/-- `SAFE_URL_PROTOCOLS` from utils/security.ts. -/
def SAFE_URL_PROTOCOLS : List JStr :=
  [strL "http:", strL "https:", strL "mailto:", strL "tel:"]

/-- Result of the browser URL constructor: a protocol and the resolved href. -/
structure UrlParts where
  protocol : JStr
  href : JStr
deriving DecidableEq, Repr

/-- Valid first character of a URL scheme. -/
def isSchemeStart (c : Char) : Bool := c.isAlpha

/-- Valid non-initial character of a URL scheme. -/
def isSchemeChar (c : Char) : Bool :=
  c.isAlpha || c.isDigit || c = '+' || c = '-' || c = '.'

/-- Modelled from the spec: the browser's WHATWG `new URL(url, window.location.href)`
parser is platform code outside this repository.  Model: a string with a valid
`scheme:` prefix parses absolutely with that (lowercased) protocol; a string with
no colon resolves against an `https:` base page; a string containing a colon but
no well-formed scheme prefix fails to parse. -/
def urlParse (url : JStr) : Option UrlParts :=
  match url with
  | c :: rest =>
    if isSchemeStart c then
      let scheme := c :: rest.takeWhile isSchemeChar
      let after := rest.dropWhile isSchemeChar
      match after with
      | ':' :: _ => some ⟨lowerList scheme ++ [':'], url⟩
      | _ =>
        if url.contains ':' then none
        else some ⟨strL "https:", strL "https://example.com/" ++ url⟩
    else if url.contains ':' then none
    else some ⟨strL "https:", strL "https://example.com/" ++ url⟩
  | [] => none

/-- `sanitizeURL` from utils/security.ts: trims, blocks dangerous schemes
case-insensitively, then accepts only URLs parsing to a safe protocol, or
colon-free relative URLs when parsing fails. -/
def sanitizeURL (url : JStr) : Option JStr :=
  if url.isEmpty then none
  else
    let u := trimList url
    if u.isEmpty then none
    else
      let lowerUrl := lowerList u
      if (strL "javascript:").isPrefixOf lowerUrl
          || (strL "data:").isPrefixOf lowerUrl
          || (strL "vbscript:").isPrefixOf lowerUrl
          || (strL "file:").isPrefixOf lowerUrl then
        none
      else
        match urlParse u with
        | some parts =>
          if SAFE_URL_PROTOCOLS.contains parts.protocol then some parts.href
          else none
        | none => if lowerUrl.contains ':' then none else some u

/-- Hexadecimal digit, as in the regex `[0-9a-f]` with the `i` flag. -/
def isHexDigitCh (c : Char) : Bool :=
  c.isDigit || ('a' ≤ c && c ≤ 'f') || ('A' ≤ c && c ≤ 'F')

/-- The regex `^#([0-9a-f]{3}|[0-9a-f]{6}|[0-9a-f]{8})$` of validateColor. -/
def isHexColor : JStr → Bool
  | '#' :: rest =>
    rest.all isHexDigitCh &&
      (rest.length = 3 || rest.length = 6 || rest.length = 8)
  | _ => false

/-- The regex fragment `\s*`: consume whitespace. -/
def eatWS (l : JStr) : JStr := l.dropWhile Char.isWhitespace

/-- Value of a digit string, most-significant digit first. -/
def digitsToNat (ds : JStr) : Nat :=
  ds.foldl (fun a c => a * 10 + (c.toNat - '0'.toNat)) 0

/-- The regex fragment `\s*(\d{1,3})\s*`: a 1-3 digit component with
surrounding whitespace (regex backtracking cannot extend past 3 digits,
so a maximal digit run longer than 3 fails the match). -/
def readComp (l : JStr) : Option (Nat × JStr) :=
  let l := eatWS l
  let ds := l.takeWhile Char.isDigit
  let rest := l.dropWhile Char.isDigit
  if ds.length = 0 || 3 < ds.length then none
  else some (digitsToNat ds, eatWS rest)

/-- The regex fragment `\s*(\d{1,3})%\s*`: as `readComp` but the digits are
immediately followed by a percent sign. -/
def readPctComp (l : JStr) : Option (Nat × JStr) :=
  let l := eatWS l
  let ds := l.takeWhile Char.isDigit
  let rest := l.dropWhile Char.isDigit
  if ds.length = 0 || 3 < ds.length then none
  else
    match rest with
    | '%' :: rest => some (digitsToNat ds, eatWS rest)
    | _ => none

/-- The regex fragment `(0|1|0?\.\d+)` for the alpha channel, with the
backtracking of the ordered alternation compiled away (a lone `0`/`1` only
stands when not followed by a fractional part). -/
def readAlphaVal : JStr → Option JStr
  | '0' :: '.' :: rest =>
    let ds := rest.takeWhile Char.isDigit
    if ds.isEmpty then none else some (rest.dropWhile Char.isDigit)
  | '.' :: rest =>
    let ds := rest.takeWhile Char.isDigit
    if ds.isEmpty then none else some (rest.dropWhile Char.isDigit)
  | '0' :: rest => some rest
  | '1' :: rest => some rest
  | _ => none

/-- Single character expected next. -/
def expectCh (c : Char) : JStr → Option JStr
  | x :: xs => if x = c then some xs else none
  | [] => none

/-- Tail of the rgb/hsl regexes: the optional `(,\s*(0|1|0?\.\d+)\s*)?`
group followed by the closing `\)$`. -/
def readAlphaAndClose (l : JStr) : Bool :=
  match l with
  | ',' :: rest =>
    match readAlphaVal (eatWS rest) with
    | some rest =>
      match expectCh ')' (eatWS rest) with
      | some rest => rest.isEmpty
      | none => false
    | none => false
  | _ =>
    match expectCh ')' l with
    | some rest => rest.isEmpty
    | none => false

/-- The full rgb/rgba regex of validateColor, returning the three components. -/
def rgbMatch (l : JStr) : Option (Nat × Nat × Nat) := do
  let rest ←
    match l with
    | 'r' :: 'g' :: 'b' :: 'a' :: '(' :: rest => some rest
    | 'r' :: 'g' :: 'b' :: '(' :: rest => some rest
    | _ => none
  let (r, rest) ← readComp rest
  let rest ← expectCh ',' rest
  let (g, rest) ← readComp rest
  let rest ← expectCh ',' rest
  let (b, rest) ← readComp rest
  if readAlphaAndClose rest then some (r, g, b) else none

/-- The full hsl/hsla regex of validateColor, returning hue and percentages. -/
def hslMatch (l : JStr) : Option (Nat × Nat × Nat) := do
  let rest ←
    match l with
    | 'h' :: 's' :: 'l' :: 'a' :: '(' :: rest => some rest
    | 'h' :: 's' :: 'l' :: '(' :: rest => some rest
    | _ => none
  let (h, rest) ← readComp rest
  let rest ← expectCh ',' rest
  let (s, rest) ← readPctComp rest
  let rest ← expectCh ',' rest
  let (l2, rest) ← readPctComp rest
  if readAlphaAndClose rest then some (h, s, l2) else none

/-- The named-colour allowlist of validateColor. -/
def namedColors : List JStr :=
  [strL "black", strL "white", strL "red", strL "green", strL "blue",
   strL "yellow", strL "cyan", strL "magenta", strL "gray", strL "grey",
   strL "orange", strL "purple", strL "pink", strL "brown", strL "navy",
   strL "teal", strL "olive", strL "lime", strL "aqua", strL "maroon",
   strL "silver", strL "fuchsia", strL "transparent"]

/-- `validateColor` from utils/security.ts: trims and lowercases, then accepts
hex colours, in-range rgb/rgba, in-range hsl/hsla, or a fixed named set. -/
def validateColor (color : JStr) : Option JStr :=
  if color.isEmpty then none
  else
    let c := lowerList (trimList color)
    if c.isEmpty then none
    else if isHexColor c then some c
    else
      match rgbMatch c with
      | some (r, g, b) =>
        if r ≤ 255 && g ≤ 255 && b ≤ 255 then some c else none
      | none =>
        match hslMatch c with
        | some (h, s, l) =>
          if h ≤ 360 && s ≤ 100 && l ≤ 100 then some c else none
        | none => if namedColors.contains c then some c else none

/-! ### sanitizeHTML (utils/security.ts)

`sanitizeHTML` parses the markup through a temporary DOM element and
recursively rebuilds it, keeping only allowlisted tags, attributes and
style properties.  The DOM tree, the browser's innerHTML parser and its
serializer are platform code modelled below; the traversal itself —
`sanitizeNode`'s dispatch and attribute loop, `sanitizeStyle` and
`sanitizeStyleValue` — is embedded from the source.  The recursive
functions over the tree carry an explicit fuel argument so that they stay
structurally recursive; every wrapper passes fuel exceeding the depth of
any tree the modelled parser can produce. -/

/-- A browser DOM node: a text node, an element with attributes and
children, or any other node kind (comments and the like). -/
inductive DomNode where
  | text (s : JStr)
  | elem (tag : JStr) (attrs : List (JStr × JStr)) (children : List DomNode)
  | other

/-- `ALLOWED_TAGS` from utils/security.ts. -/
def ALLOWED_TAGS : List JStr :=
  [strL "p", strL "br", strL "strong", strL "b", strL "em", strL "i",
   strL "u", strL "s", strL "strike", strL "code", strL "pre", strL "a",
   strL "h1", strL "h2", strL "h3", strL "h4", strL "h5", strL "h6",
   strL "ul", strL "ol", strL "li", strL "blockquote", strL "span",
   strL "div"]

/-- `ALLOWED_ATTRIBUTES` from utils/security.ts: `a` may carry href and
title, the listed formatting and block tags may carry style, and every
other tag (such as `br`) carries nothing. -/
def ALLOWED_ATTRIBUTES (tag : JStr) : List JStr :=
  if tag = strL "a" then [strL "href", strL "title"]
  else if ([strL "span", strL "div", strL "p", strL "h1", strL "h2",
      strL "h3", strL "h4", strL "h5", strL "h6", strL "strong", strL "b",
      strL "em", strL "i", strL "u", strL "s", strL "strike", strL "code",
      strL "pre", strL "blockquote", strL "ul", strL "ol",
      strL "li"].contains tag) then
    [strL "style"]
  else []

/-- `ALLOWED_STYLE_PROPERTIES` from utils/security.ts. -/
def ALLOWED_STYLE_PROPERTIES : List JStr :=
  [strL "color", strL "background-color", strL "font-weight",
   strL "font-style", strL "text-decoration", strL "text-decoration-line"]

/-- Boolean substring test, the `.test` of the blocked style patterns. -/
def containsSub (needle : JStr) : JStr → Bool
  | [] => needle.isEmpty
  | c :: rest => needle.isPrefixOf (c :: rest) || containsSub needle rest

/-- `sanitizeStyleValue` from utils/security.ts: trims the value and blocks
the dangerous patterns, all of which are case-insensitive substring
tests. -/
def sanitizeStyleValue (value : JStr) : Option JStr :=
  if value.isEmpty then none
  else
    let v := trimList value
    let lower := lowerList v
    if containsSub (strL "javascript:") lower
        || containsSub (strL "expression(") lower
        || containsSub (strL "import") lower
        || containsSub (strL "@import") lower
        || containsSub (strL "url(") lower
        || containsSub (strL "behavior:") lower
        || containsSub (strL "-moz-binding") lower then
      none
    else some v

/-- `sanitizeStyle` from utils/security.ts: split the style string into
declarations, keep allowlisted properties whose value survives
`sanitizeStyleValue` (a falsy sanitized value is dropped), rejoin with
`"; "`. -/
def sanitizeStyle (style : JStr) : JStr :=
  if style.isEmpty then []
  else
    let declarations := (style.splitOn ';').filter fun d => !(trimList d).isEmpty
    let sanitized :=
      declarations.foldr
        (fun decl acc =>
          match (decl.splitOn ':').map trimList with
          | property :: value :: _ =>
            if property.isEmpty || value.isEmpty then acc
            else if !ALLOWED_STYLE_PROPERTIES.contains (lowerList property) then acc
            else
              match sanitizeStyleValue value with
              | some sv =>
                if sv.isEmpty then acc else (property ++ strL ": " ++ sv) :: acc
              | none => acc
          | _ => acc)
        []
    List.intercalate (strL "; ") sanitized

/-- The attribute-copying loop of `sanitizeNode`: keep allowlisted
attributes, routing href through `sanitizeURL` and style through
`sanitizeStyle`, dropping either when rejected or empty. -/
def sanitizeAttrs (tagName : JStr) (attrs : List (JStr × JStr)) : List (JStr × JStr) :=
  attrs.foldr
    (fun a acc =>
      if (ALLOWED_ATTRIBUTES tagName).contains a.1 then
        if a.1 = strL "href" then
          match sanitizeURL a.2 with
          | some u => (a.1, u) :: acc
          | none => acc
        else if a.1 = strL "style" then
          let st := sanitizeStyle a.2
          if st.isEmpty then acc else (a.1, st) :: acc
        else a :: acc
      else acc)
    []

/-- The DOM `textContent` accessor: the concatenated text of all
descendants. -/
def textContentGo : Nat → DomNode → JStr
  | _, .text s => s
  | _, .other => []
  | 0, .elem _ _ _ => []
  | fuel + 1, .elem _ _ children => (children.map (textContentGo fuel)).flatten

/-- `sanitizeNode` from utils/security.ts: a text node is cloned, a
disallowed element collapses to a text node holding its textContent, an
allowed element is rebuilt with its lowercased tag, filtered attributes and
sanitized children, and any other node kind becomes empty text. -/
def sanitizeNodeGo : Nat → DomNode → DomNode
  | _, .text s => .text s
  | _, .other => .text []
  | 0, .elem tag attrs children => .text (textContentGo 0 (.elem tag attrs children))
  | fuel + 1, .elem tag attrs children =>
    let tagName := lowerList tag
    if !ALLOWED_TAGS.contains tagName then
      .text (textContentGo (fuel + 1) (.elem tag attrs children))
    else
      .elem tagName (sanitizeAttrs tagName attrs) (children.map (sanitizeNodeGo fuel))

/-- Modelled platform code: the browser's innerHTML serializer — a plain
structural printer (text nodes verbatim; entity escaping is not
modelled). -/
def serializeNodeGo : Nat → DomNode → JStr
  | _, .text s => s
  | _, .other => []
  | 0, .elem _ _ _ => []
  | fuel + 1, .elem tag attrs children =>
    '<' :: (tag ++ (attrs.map fun a => ' ' :: (a.1 ++ '=' :: '"' :: (a.2 ++ ['"']))).flatten
      ++ '>' :: ((children.map (serializeNodeGo fuel)).flatten
        ++ '<' :: '/' :: (tag ++ ['>'])))

/-- Serialize a node list with uniform fuel. -/
def serializeNodesGo (fuel : Nat) (ns : List DomNode) : JStr :=
  (ns.map (serializeNodeGo fuel)).flatten

/-- Modelled platform code: the browser's innerHTML parser behind
sanitizeHTML's temporary element.  Model: a flat scan — `<...>` markup
becomes a childless element named by the first word of the tag text
(closing tags surface as elements named `/tag`, which the allowlist later
culls), everything else becomes text; a `<` never followed by `>` leaves
the remainder as a single text node. -/
def parseHTMLGo : Nat → JStr → List DomNode
  | _, [] => []
  | 0, s => [.text s]
  | fuel + 1, '<' :: rest =>
    if rest.contains '>' then
      .elem ((rest.takeWhile (· ≠ '>')).takeWhile (· ≠ ' ')) [] [] ::
        parseHTMLGo fuel ((rest.dropWhile (· ≠ '>')).drop 1)
    else [.text ('<' :: rest)]
  | fuel + 1, c :: rest =>
    match parseHTMLGo fuel rest with
    | .text s :: ns => .text (c :: s) :: ns
    | ns => .text [c] :: ns

/-- The browser parse of a markup string. -/
def parseHTMLM (s : JStr) : List DomNode := parseHTMLGo s.length s

/-- `sanitizeHTML` from utils/security.ts: falsy input yields the empty
string; otherwise the markup is parsed into a temporary div element, the
tree is sanitized by `sanitizeNodeGo`, and the sanitized div's innerHTML is
returned. -/
def sanitizeHTML (html : JStr) : JStr :=
  if html.isEmpty then []
  else
    let fuel := html.length + 2
    match sanitizeNodeGo fuel (.elem (strL "div") [] (parseHTMLM html)) with
    | .elem _ _ children => serializeNodesGo fuel children
    | n => serializeNodesGo fuel [n]

/-! ## The WASM document core

The Rust `WasmDocument` behind `wasm/rte_core` ships only as a compiled
binary; the definitions in this section are modelled from the specification
(spec §3 data model, §4.1 text storage, §4.2 format runs, §4.3 blocks,
§4.4 history, §4.5 serialization). -/

/-- The closed set of format styles (spec §3): five tag-only styles and
three value-carrying styles. -/
inductive FormatTag
  | bold | italic | underline | strikethrough | code
  | link | textColor | backgroundColor
deriving DecidableEq, Repr

/-- A format run `{start, end, format, value?}`; `stop` embeds the source's
`end` field (a Lean keyword). -/
structure FormatRun where
  start : Nat
  stop : Nat
  tag : FormatTag
  value : Option JStr
deriving DecidableEq, Repr

/-- The block types of spec §3. -/
inductive BlockKind
  | paragraph
  | heading1 | heading2 | heading3 | heading4 | heading5 | heading6
  | bulletList | numberedList | blockQuote | codeBlock
deriving DecidableEq, Repr

/-- A block `{start, end, blockType}`; `stop` embeds the source's `end`. -/
structure Block where
  start : Nat
  stop : Nat
  kind : BlockKind
deriving DecidableEq, Repr

/-- Modelled from the spec: the document state owned by the Rust core that
history commands capture — text storage, format run table, block table and
selection (spec §3). -/
structure DocCore where
  text : JStr
  runs : List FormatRun
  blocks : List Block
  sel : Int × Int
deriving DecidableEq, Repr

/-- Modelled from the spec: a history command captures enough state to
exactly invert and re-apply one mutation (spec §3, §4.4); embedded as the
pre- and post-mutation document states. -/
structure HistCmd where
  before : DocCore
  after : DocCore
deriving DecidableEq, Repr

/-- Modelled from the spec: the Rust `WasmDocument` — one document core plus
the two history stacks (most recent at the HEAD here; spec §4.4 keeps it at
the tail, so eviction of the oldest entries drops from our tail), the
configurable history limit, and a `corrupt` flag abstracting the
"internal bug" condition under which inverse application fails (spec §4.4
failure semantics). -/
structure WasmDoc where
  core : DocCore
  undoStack : List HistCmd
  redoStack : List HistCmd
  historyLimit : Option Nat
  corrupt : Bool
deriving DecidableEq, Repr

namespace WasmDoc

/-- A fresh empty document: empty text, no runs, a single empty paragraph
block, collapsed selection at 0 (spec §6 `new()`). -/
def new : WasmDoc :=
  { core := { text := [], runs := [], blocks := [⟨0, 0, .paragraph⟩], sel := (0, 0) }
    undoStack := []
    redoStack := []
    historyLimit := none
    corrupt := false }

/-- `getLength()` — the character length of the text storage. -/
def getLengthS (d : WasmDoc) : Nat := d.core.text.length

/-- `getContent()` — the raw text. -/
def getContentS (d : WasmDoc) : JStr := d.core.text

/-- Modelled from the spec: push a mutation onto the undo stack, clear the
redo stack, and evict the oldest entries beyond the history limit
(spec §4.4). -/
def pushHistory (d : WasmDoc) (newCore : DocCore) : WasmDoc :=
  let st := ⟨d.core, newCore⟩ :: d.undoStack
  let st :=
    match d.historyLimit with
    | some n => st.take n
    | none => st
  { d with core := newCore, undoStack := st, redoStack := [] }

/-- Run/format boundary shift under insertion: boundaries at or after the
insertion point move right (spec §4.1). -/
def shiftRunBound (pos len b : Nat) : Nat := if pos ≤ b then b + len else b

/-- Block start shift under insertion: inserted text joins the block ending
at the insertion point, so a block start equal to the insertion point moves
right unless it is the document start (keeps the partition total). -/
def shiftBlockStart (pos len s : Nat) : Nat :=
  if s < pos ∨ s = 0 then s else s + len

/-- Block end shift under insertion: a block end at or after the insertion
point moves right (the containing block extends over the inserted text). -/
def shiftBlockStop (pos len e : Nat) : Nat := if pos ≤ e then e + len else e

/-- Modelled from the spec: `insert(text, position)` of the Rust core —
splices the text in, shifts every format-run and block boundary, pushes an
inverse command, clears the redo stack (spec §4.1, §4.4). Callers validate
the position first. -/
def insertTextS (d : WasmDoc) (t : JStr) (pos : Nat) : WasmDoc :=
  let len := t.length
  let newCore : DocCore :=
    { text := d.core.text.take pos ++ t ++ d.core.text.drop pos
      runs := d.core.runs.map fun r =>
        { r with start := shiftRunBound pos len r.start, stop := shiftRunBound pos len r.stop }
      blocks := d.core.blocks.map fun b =>
        { b with start := shiftBlockStart pos len b.start, stop := shiftBlockStop pos len b.stop }
      sel := d.core.sel }
  d.pushHistory newCore

/-- Boundary remap under deletion of `[s, e)`: boundaries before the range
stay, boundaries after shift left, boundaries inside collapse to `s`
(spec §4.1). -/
def remapBound (s e b : Nat) : Nat :=
  if b ≤ s then b else if e ≤ b then b - (e - s) else s

/-- Modelled from the spec: `delete(start, end)` of the Rust core — removes
the slice, remaps boundaries, garbage-collects empty runs and blocks,
resets to a single empty paragraph if no block survives (spec §4.1, §4.4).
Callers validate the range first. -/
def deleteRangeS (d : WasmDoc) (s e : Nat) : WasmDoc :=
  let newText := d.core.text.take s ++ d.core.text.drop e
  let newRuns :=
    (d.core.runs.map fun r =>
      { r with start := remapBound s e r.start, stop := remapBound s e r.stop }).filter
      fun r => r.start < r.stop
  let newBlocks :=
    (d.core.blocks.map fun b =>
      { b with start := remapBound s e b.start, stop := remapBound s e b.stop }).filter
      fun b => b.start < b.stop
  let newBlocks := if newBlocks.isEmpty then [⟨0, newText.length, .paragraph⟩] else newBlocks
  d.pushHistory { text := newText, runs := newRuns, blocks := newBlocks, sel := d.core.sel }

/-- Range check shared by the format operations: `start < end <= length`,
with nonnegative bounds (spec §4.2). -/
def validRange (d : WasmDoc) (s e : Int) : Bool :=
  0 ≤ s && s < e && e ≤ (d.getLengthS : Int)

/-- Modelled from the spec: `applyFormat(format, start, end)` of the Rust
core for tag-only formats — fails with InvalidRange when not
`start < end <= length`; otherwise merges every same-format run overlapping
or adjacent to the range into one run spanning the union (spec §4.2). -/
def applyFormatS (d : WasmDoc) (tag : FormatTag) (s e : Int) : Except Unit WasmDoc :=
  if ¬ d.validRange s e then .error ()
  else
    let s := s.toNat
    let e := e.toNat
    let touches : FormatRun → Bool := fun r => r.tag = tag && r.start ≤ e && s ≤ r.stop
    let newStart := d.core.runs.foldl (fun a r => if touches r then min a r.start else a) s
    let newStop := d.core.runs.foldl (fun a r => if touches r then max a r.stop else a) e
    let newRuns := d.core.runs.filter (fun r => !touches r) ++ [⟨newStart, newStop, tag, none⟩]
    .ok (d.pushHistory { d.core with runs := newRuns })

/-- The fragments of a run kept outside a cleared range `[s, e)`: the
portions to the left and right survive, trimmed to the range bounds. -/
def trimRun (s e : Nat) (r : FormatRun) : List FormatRun :=
  (if r.start < s then [{ r with stop := min r.stop s }] else []) ++
    (if e < r.stop then [{ r with start := max r.start e }] else [])

/-- Modelled from the spec: `applyFormat(format, value, start, end)` of the
Rust core for value-carrying formats — fails with InvalidRange like the
tag-only case; otherwise splits any same-format run so the new value applies
exactly to `[start, end)` (spec §4.2). -/
def applyFormatWithValueS (d : WasmDoc) (tag : FormatTag) (v : JStr) (s e : Int) :
    Except Unit WasmDoc :=
  if ¬ d.validRange s e then .error ()
  else
    let s := s.toNat
    let e := e.toNat
    let newRuns :=
      (d.core.runs.filter fun r => r.tag ≠ tag) ++
        (d.core.runs.filter fun r => r.tag = tag).flatMap (trimRun s e) ++
        [⟨s, e, tag, some v⟩]
    .ok (d.pushHistory { d.core with runs := newRuns })

/-- Modelled from the spec: `removeFormat(format, start, end)` of the Rust
core — fails with InvalidRange under the same condition; otherwise trims or
splits same-format runs so none overlaps `[start, end)` (spec §4.2). -/
def removeFormatS (d : WasmDoc) (tag : FormatTag) (s e : Int) : Except Unit WasmDoc :=
  if ¬ d.validRange s e then .error ()
  else
    let s := s.toNat
    let e := e.toNat
    let newRuns :=
      (d.core.runs.filter fun r => r.tag ≠ tag) ++
        (d.core.runs.filter fun r => r.tag = tag).flatMap (trimRun s e)
    .ok (d.pushHistory { d.core with runs := newRuns })

/-- Modelled from the spec: `setSelection(anchor, focus)` of the Rust core —
sets the transient selection; selection changes push no history command
(spec §3, §4.4). Callers validate the offsets first. -/
def setSelectionS (d : WasmDoc) (a f : Int) : WasmDoc :=
  { d with core := { d.core with sel := (a, f) } }

/-- `getSelection()` of the Rust core. -/
def getSelectionS (d : WasmDoc) : Int × Int := d.core.sel

/-- `canUndo()` of the Rust core: undo-stack non-emptiness (spec §4.4). -/
def canUndoS (d : WasmDoc) : Bool := !d.undoStack.isEmpty

/-- `canRedo()` of the Rust core: redo-stack non-emptiness (spec §4.4). -/
def canRedoS (d : WasmDoc) : Bool := !d.redoStack.isEmpty

/-- Modelled from the spec: `undo()` of the Rust core — pops the most recent
command, restores its pre-mutation state and moves it to the redo stack;
empty-stack is a no-op; inverse application fails when the internal state is
corrupt (spec §4.4). -/
def undoS (d : WasmDoc) : Except Unit WasmDoc :=
  if d.corrupt then .error ()
  else
    match d.undoStack with
    | [] => .ok d
    | c :: rest =>
      .ok { d with core := c.before, undoStack := rest, redoStack := c :: d.redoStack }

/-- Modelled from the spec: `redo()` of the Rust core — symmetric to undo
(spec §4.4). -/
def redoS (d : WasmDoc) : Except Unit WasmDoc :=
  if d.corrupt then .error ()
  else
    match d.redoStack with
    | [] => .ok d
    | c :: rest =>
      .ok { d with core := c.after, undoStack := c :: d.undoStack, redoStack := rest }

/-- Modelled from the spec: `setHistoryLimit(n)` — records the bound and
evicts the oldest undo entries beyond it (spec §4.4). -/
def setHistoryLimitS (d : WasmDoc) (n : Nat) : WasmDoc :=
  { d with historyLimit := some n, undoStack := d.undoStack.take n }

/-- Modelled from the spec: `toPlainText()` — the block slices of the text
joined with newlines between blocks (spec §4.5). -/
def toPlainTextS (d : WasmDoc) : JStr :=
  List.intercalate [Char.ofNat 10]
    (d.core.blocks.map fun b => (d.core.text.drop b.start).take (b.stop - b.start))

end WasmDoc

/-- Helper for the plain-text importer: successive lines become successive
paragraph blocks starting at the given offset. -/
def linesToBlocks : List JStr → Nat → List Block
  | [], _ => []
  | l :: ls, off => ⟨off, off + l.length, .paragraph⟩ :: linesToBlocks ls (off + l.length)

/-- Modelled from the spec: `WasmDocument.fromText` — a brand-new document
whose text is the input with newlines removed, each line a paragraph block
(spec §4.5: newlines become block breaks; block boundaries are rendered back
as newlines on export). -/
def WasmDoc.fromTextS (s : JStr) : WasmDoc :=
  let lines := s.splitOn (Char.ofNat 10)
  { core :=
      { text := lines.flatten
        runs := []
        blocks := linesToBlocks lines 0
        sel := (0, 0) }
    undoStack := []
    redoStack := []
    historyLimit := none
    corrupt := false }

/-! ## The persisted JSON format

Spec §6: a versioned document `{version, text, formatRuns:[{start,end,format,
value?}], blocks:[{start,end,type}]}`.  The Rust serializer is not in the
repository; the payload is modelled as that exact structure written to a
string through an unambiguous length-prefixed wire syntax (digits are written
least-significant first), with the decoder as its inverse rejecting
everything outside the image and unknown versions. -/

/-- Character for a single decimal digit. -/
def digitCh (d : Nat) : Char := Char.ofNat ('0'.toNat + d)

/-- Numeric value of a digit character. -/
def digitVal (c : Char) : Nat := c.toNat - '0'.toNat

/-- A natural number on the wire: its decimal digits least-significant
first, terminated by `|`. -/
def encodeNat (n : Nat) : JStr := (Nat.digits 10 n).map digitCh ++ ['|']

/-- Read a `|`-terminated digit run back into a number. -/
def readNat (l : JStr) : Option (Nat × JStr) :=
  let ds := l.takeWhile Char.isDigit
  match l.dropWhile Char.isDigit with
  | '|' :: rest => some (Nat.ofDigits 10 (ds.map digitVal), rest)
  | _ => none

/-- A string on the wire: its length, then its characters verbatim. -/
def encodeChunk (t : JStr) : JStr := encodeNat t.length ++ t

/-- Read a length-prefixed string back. -/
def readChunk (l : JStr) : Option (JStr × JStr) := do
  let (n, rest) ← readNat l
  if n ≤ rest.length then some (rest.take n, rest.drop n) else none

/-- One-character wire code of a format tag. -/
def encodeTag : FormatTag → Char
  | .bold => 'b'
  | .italic => 'i'
  | .underline => 'u'
  | .strikethrough => 's'
  | .code => 'c'
  | .link => 'l'
  | .textColor => 't'
  | .backgroundColor => 'g'

/-- Decode a format-tag wire code. -/
def readTag : Char → Option FormatTag
  | 'b' => some .bold
  | 'i' => some .italic
  | 'u' => some .underline
  | 's' => some .strikethrough
  | 'c' => some .code
  | 'l' => some .link
  | 't' => some .textColor
  | 'g' => some .backgroundColor
  | _ => none

/-- One-character wire code of a block type. -/
def encodeKind : BlockKind → Char
  | .paragraph => 'p'
  | .heading1 => '1'
  | .heading2 => '2'
  | .heading3 => '3'
  | .heading4 => '4'
  | .heading5 => '5'
  | .heading6 => '6'
  | .bulletList => 'u'
  | .numberedList => 'o'
  | .blockQuote => 'q'
  | .codeBlock => 'k'

/-- Decode a block-type wire code. -/
def readKind : Char → Option BlockKind
  | 'p' => some .paragraph
  | '1' => some .heading1
  | '2' => some .heading2
  | '3' => some .heading3
  | '4' => some .heading4
  | '5' => some .heading5
  | '6' => some .heading6
  | 'u' => some .bulletList
  | 'o' => some .numberedList
  | 'q' => some .blockQuote
  | 'k' => some .codeBlock
  | _ => none

/-- A format run on the wire: bounds, tag code, then `n` for no value or
`v` followed by the value string. -/
def encodeRun (r : FormatRun) : JStr :=
  encodeNat r.start ++ encodeNat r.stop ++ [encodeTag r.tag] ++
    (match r.value with
     | none => ['n']
     | some v => 'v' :: encodeChunk v)

/-- Read one format run back. -/
def readRun (l : JStr) : Option (FormatRun × JStr) := do
  let (s, l) ← readNat l
  let (e, l) ← readNat l
  match l with
  | tc :: 'n' :: l => do
    let tag ← readTag tc
    some (⟨s, e, tag, none⟩, l)
  | tc :: 'v' :: l => do
    let tag ← readTag tc
    let (v, l) ← readChunk l
    some (⟨s, e, tag, some v⟩, l)
  | _ => none

/-- Read a counted sequence of format runs. -/
def readRunsN : Nat → JStr → Option (List FormatRun × JStr)
  | 0, l => some ([], l)
  | n + 1, l => do
    let (r, l) ← readRun l
    let (rs, l) ← readRunsN n l
    some (r :: rs, l)

/-- A block on the wire: bounds then the type code. -/
def encodeBlock (b : Block) : JStr :=
  encodeNat b.start ++ encodeNat b.stop ++ [encodeKind b.kind]

/-- Read one block back. -/
def readBlock (l : JStr) : Option (Block × JStr) := do
  let (s, l) ← readNat l
  let (e, l) ← readNat l
  match l with
  | kc :: l => do
    let k ← readKind kc
    some (⟨s, e, k⟩, l)
  | _ => none

/-- Read a counted sequence of blocks. -/
def readBlocksN : Nat → JStr → Option (List Block × JStr)
  | 0, l => some ([], l)
  | n + 1, l => do
    let (b, l) ← readBlock l
    let (bs, l) ← readBlocksN n l
    some (b :: bs, l)

/-- The structural content of the persisted JSON document (spec §6). -/
structure DocJson where
  version : Nat
  text : JStr
  formatRuns : List FormatRun
  blocks : List Block
deriving DecidableEq, Repr

/-- Serialize the persisted document structure. -/
def encodeDocJson (dj : DocJson) : JStr :=
  encodeNat dj.version ++ encodeChunk dj.text ++
    encodeNat dj.formatRuns.length ++ (dj.formatRuns.map encodeRun).flatten ++
    encodeNat dj.blocks.length ++ (dj.blocks.map encodeBlock).flatten

/-- Parse a persisted document, rejecting malformed or trailing input. -/
def decodeDocJson (l : JStr) : Option DocJson := do
  let (v, l) ← readNat l
  let (t, l) ← readChunk l
  let (nr, l) ← readNat l
  let (rs, l) ← readRunsN nr l
  let (nb, l) ← readNat l
  let (bs, l) ← readBlocksN nb l
  if l.isEmpty then some ⟨v, t, rs, bs⟩ else none

namespace WasmDoc

/-- Modelled from the spec: `toJSON()` of the Rust core — a complete
structural dump of text, format runs and blocks under version 1
(spec §4.5, §6). -/
def toJSONS (d : WasmDoc) : JStr :=
  encodeDocJson ⟨1, d.core.text, d.core.runs, d.core.blocks⟩

/-- Modelled from the spec: `WasmDocument.fromJSON` of the Rust core —
rejects malformed payloads and unknown versions with a serialization error,
otherwise constructs a brand-new document from the dumped state with a fresh
(collapsed) selection and empty history (spec §4.5, §6). -/
def fromJSONS (s : JStr) : Except Unit WasmDoc :=
  match decodeDocJson s with
  | none => .error ()
  | some dj =>
    if dj.version = 1 then
      .ok
        { core := { text := dj.text, runs := dj.formatRuns, blocks := dj.blocks, sel := (0, 0) }
          undoStack := []
          redoStack := []
          historyLimit := none
          corrupt := false }
    else .error ()

end WasmDoc

/-- Fuel-bounded core of `stripTags` (the fuel keeps the recursion
structural; the wrapper passes the input length, which always suffices
because every step consumes at least one character). -/
def stripTagsGo : Nat → JStr → Option JStr
  | _, [] => some []
  | 0, _ => none
  | fuel + 1, '<' :: rest =>
    if rest.contains '>' then stripTagsGo fuel ((rest.dropWhile (· ≠ '>')).drop 1)
    else none
  | fuel + 1, c :: rest => do
    let t ← stripTagsGo fuel rest
    some (c :: t)

/-- Text left after removing `<...>` tags; `none` when a tag never closes. -/
def stripTags (s : JStr) : Option JStr := stripTagsGo s.length s

/-- Modelled from the spec: `WasmDocument.fromHTML` of the Rust core,
reduced to the behaviour the claims depend on — it rejects malformed markup
(an unterminated tag) with a serialization error and otherwise constructs a
brand-new document from the tag-stripped text (spec §4.5). -/
def WasmDoc.fromHTMLS (s : JStr) : Except Unit WasmDoc :=
  match stripTags s with
  | none => .error ()
  | some t => .ok (WasmDoc.fromTextS t)

/-- Heading prefix of a Markdown line: the heading level and remaining text
for one to six leading `#` characters followed by a space. -/
def mdHeading (l : JStr) : Option (BlockKind × JStr) :=
  match l with
  | '#' :: '#' :: '#' :: '#' :: '#' :: '#' :: ' ' :: r => some (.heading6, r)
  | '#' :: '#' :: '#' :: '#' :: '#' :: ' ' :: r => some (.heading5, r)
  | '#' :: '#' :: '#' :: '#' :: ' ' :: r => some (.heading4, r)
  | '#' :: '#' :: '#' :: ' ' :: r => some (.heading3, r)
  | '#' :: '#' :: ' ' :: r => some (.heading2, r)
  | '#' :: ' ' :: r => some (.heading1, r)
  | _ => none

/-- Lines with their block types: heading lines get heading blocks, all
other lines paragraphs. -/
def mdLinesToBlocks : List JStr → Nat → List Block × JStr
  | [], _ => ([], [])
  | l :: ls, off =>
    let (kind, body) :=
      match mdHeading l with
      | some (k, r) => (k, r)
      | none => (BlockKind.paragraph, l)
    let (bs, t) := mdLinesToBlocks ls (off + body.length)
    (⟨off, off + body.length, kind⟩ :: bs, body ++ t)

/-- Modelled from the spec: `WasmDocument.fromMarkdown` of the Rust core,
reduced to block-level structure — heading prefixes become heading blocks,
other lines paragraphs; inline markup is outside what any claim needs
(spec §4.5). -/
def WasmDoc.fromMarkdownS (s : JStr) : Except Unit WasmDoc :=
  let lines := s.splitOn (Char.ofNat 10)
  let (blocks, text) := mdLinesToBlocks lines 0
  .ok
    { core := { text := text, runs := [], blocks := blocks, sel := (0, 0) }
      undoStack := []
      redoStack := []
      historyLimit := none
      corrupt := false }

/-! ## The RichTextEditor facade (packages/core/src/core/RichTextEditor.ts)

Embedded as state-passing functions `Editor → Except ErrCode α × Editor`:
a thrown `EditorError` becomes `.error code` paired with the unchanged
editor, a normal return becomes `.ok` paired with the updated editor.
Rendering, ARIA announcements and logging have no document-model effect and
are dropped. -/

/-- The `ErrorCodes` constants of src/types (the members a claim touches). -/
inductive ErrCode
  | INVALID_POSITION
  | INVALID_RANGE
  | INVALID_SELECTION
  | INVALID_FORMAT
  | EDITOR_DESTROYED
  | SERIALIZATION_ERROR
  | VALIDATION_ERROR
  | MAX_LENGTH_EXCEEDED
  | HISTORY_ERROR
deriving DecidableEq, Repr

/-- The `EditorOptions` the embedded methods consult: `enableHistory` and
`maxLength` as in the source (absent boolean options read as false), plus
whether an `onError` callback is configured. -/
structure EditorOptions where
  enableHistory : Bool
  maxLength : Option Nat
  onErrorConfigured : Bool
deriving DecidableEq, Repr

/-- Option set with source defaults: no history, no cap, no onError. -/
def EditorOptions.default : EditorOptions :=
  { enableHistory := false, maxLength := none, onErrorConfigured := false }

/-- A `RichTextEditor` instance: its `WasmDocument`, options, destroyed
flag, and the `EditorState` selection mirror updated by `setSelection`. -/
structure Editor where
  wasmDoc : WasmDoc
  options : EditorOptions
  isDestroyed : Bool
  stateSel : Int × Int
deriving DecidableEq, Repr

deriving instance DecidableEq for Except

/-- Result of one facade call: a thrown error or a value, with the editor
after the call. -/
abbrev EdResult (α : Type) := Except ErrCode α × Editor

namespace Editor

/-- A freshly constructed editor over an empty document. -/
def mk0 (opts : EditorOptions) : Editor :=
  { wasmDoc := WasmDoc.new, options := opts, isDestroyed := false, stateSel := (0, 0) }

/-- `insertText(text, position)`: destroyed guard, position validation,
max-length check, then the core insert. -/
def insertText (ed : Editor) (text : JStr) (position : Int) : EdResult Unit :=
  if ed.isDestroyed then (.error .EDITOR_DESTROYED, ed)
  else
    let length : Int := ed.wasmDoc.getLengthS
    if position < 0 ∨ length < position then (.error .INVALID_POSITION, ed)
    else
      match ed.options.maxLength with
      | some maxLen =>
        let currentLength := ed.wasmDoc.getLengthS
        let newLength := currentLength + text.length
        if maxLen < newLength then (.error .MAX_LENGTH_EXCEEDED, ed)
        else (.ok (), { ed with wasmDoc := ed.wasmDoc.insertTextS text position.toNat })
      | none => (.ok (), { ed with wasmDoc := ed.wasmDoc.insertTextS text position.toNat })

/-- `deleteRange(start, end)`: destroyed guard, range validation, then the
core delete. -/
def deleteRange (ed : Editor) (start stop : Int) : EdResult Unit :=
  if ed.isDestroyed then (.error .EDITOR_DESTROYED, ed)
  else
    let length : Int := ed.wasmDoc.getLengthS
    if start < 0 ∨ stop < start ∨ length < stop then (.error .INVALID_RANGE, ed)
    else (.ok (), { ed with wasmDoc := ed.wasmDoc.deleteRangeS start.toNat stop.toNat })

/-- `getContent()`. -/
def getContent (ed : Editor) : EdResult JStr :=
  if ed.isDestroyed then (.error .EDITOR_DESTROYED, ed)
  else (.ok ed.wasmDoc.getContentS, ed)

/-- `getLength()`. -/
def getLength (ed : Editor) : EdResult Nat :=
  if ed.isDestroyed then (.error .EDITOR_DESTROYED, ed)
  else (.ok ed.wasmDoc.getLengthS, ed)

/-- The `valueFormats` list of `applyFormat` (the hyphenated aliases of the
source collapse onto the same constructors here). -/
def valueFormats : List FormatTag := [.link, .textColor, .backgroundColor]

/-- `applyFormat(format, start, end, value?)`: for value formats a missing
(or empty, per the falsy `!value` test) value throws `INVALID_FORMAT`;
colors run through `validateColor` and links through `sanitizeURL`, a
rejected value throwing `INVALID_FORMAT`; any error out of the core call is
wrapped as `INVALID_FORMAT` by the catch block. -/
def applyFormat (ed : Editor) (format : FormatTag) (start stop : Int)
    (value : Option JStr) : EdResult Unit :=
  if ed.isDestroyed then (.error .EDITOR_DESTROYED, ed)
  else
    if valueFormats.contains format then
      match value with
      | none => (.error .INVALID_FORMAT, ed)
      | some v =>
        if v.isEmpty then (.error .INVALID_FORMAT, ed)
        else
          let sanitized : Option JStr :=
            if format = .textColor ∨ format = .backgroundColor then validateColor v
            else if format = .link then sanitizeURL v
            else some v
          match sanitized with
          | none => (.error .INVALID_FORMAT, ed)
          | some sv =>
            match ed.wasmDoc.applyFormatWithValueS format sv start stop with
            | .error _ => (.error .INVALID_FORMAT, ed)
            | .ok d => (.ok (), { ed with wasmDoc := d })
    else
      match ed.wasmDoc.applyFormatS format start stop with
      | .error _ => (.error .INVALID_FORMAT, ed)
      | .ok d => (.ok (), { ed with wasmDoc := d })

/-- `removeFormat(format, start, end)`: its catch block wraps every failure
of the core call as `INVALID_FORMAT`. -/
def removeFormat (ed : Editor) (format : FormatTag) (start stop : Int) : EdResult Unit :=
  if ed.isDestroyed then (.error .EDITOR_DESTROYED, ed)
  else
    match ed.wasmDoc.removeFormatS format start stop with
    | .error _ => (.error .INVALID_FORMAT, ed)
    | .ok d => (.ok (), { ed with wasmDoc := d })

/-- `setSelection(anchor, focus)`: destroyed guard, bounds validation, then
the core call and the `EditorState` mirror update. -/
def setSelection (ed : Editor) (anchor focus : Int) : EdResult Unit :=
  if ed.isDestroyed then (.error .EDITOR_DESTROYED, ed)
  else
    let length : Int := ed.wasmDoc.getLengthS
    if anchor < 0 ∨ length < anchor ∨ focus < 0 ∨ length < focus then
      (.error .INVALID_SELECTION, ed)
    else
      (.ok (), { ed with wasmDoc := ed.wasmDoc.setSelectionS anchor focus
                         stateSel := (anchor, focus) })

/-- `getSelection()`. -/
def getSelection (ed : Editor) : EdResult (Int × Int) :=
  if ed.isDestroyed then (.error .EDITOR_DESTROYED, ed)
  else (.ok ed.wasmDoc.getSelectionS, ed)

/-- Result of `undo`/`redo`: the call result, the editor after the call,
and the errors delivered to the configured `onError` callback. -/
structure HistOutcome where
  result : Except ErrCode Unit
  ed : Editor
  reported : List ErrCode
deriving DecidableEq, Repr

/-- `undo()`: destroyed guard; plain return when history is not enabled;
otherwise `canUndo` gate, and a failing core undo is caught — logged and
forwarded to `onError` when configured — never rethrown. -/
def undo (ed : Editor) : HistOutcome :=
  if ed.isDestroyed then ⟨.error .EDITOR_DESTROYED, ed, []⟩
  else if !ed.options.enableHistory then ⟨.ok (), ed, []⟩
  else
    let canU := ed.wasmDoc.canUndoS
    if canU then
      match ed.wasmDoc.undoS with
      | .ok d => ⟨.ok (), { ed with wasmDoc := d }, []⟩
      | .error _ =>
        ⟨.ok (), ed, if ed.options.onErrorConfigured then [.HISTORY_ERROR] else []⟩
    else ⟨.ok (), ed, []⟩

/-- `redo()`: symmetric to `undo`. -/
def redo (ed : Editor) : HistOutcome :=
  if ed.isDestroyed then ⟨.error .EDITOR_DESTROYED, ed, []⟩
  else if !ed.options.enableHistory then ⟨.ok (), ed, []⟩
  else
    let canR := ed.wasmDoc.canRedoS
    if canR then
      match ed.wasmDoc.redoS with
      | .ok d => ⟨.ok (), { ed with wasmDoc := d }, []⟩
      | .error _ =>
        ⟨.ok (), ed, if ed.options.onErrorConfigured then [.HISTORY_ERROR] else []⟩
    else ⟨.ok (), ed, []⟩

/-- `canUndo()`: destroyed guard, `false` when history is not enabled, else
the core stack check. -/
def canUndo (ed : Editor) : EdResult Bool :=
  if ed.isDestroyed then (.error .EDITOR_DESTROYED, ed)
  else if !ed.options.enableHistory then (.ok false, ed)
  else (.ok ed.wasmDoc.canUndoS, ed)

/-- `canRedo()`: symmetric to `canUndo`. -/
def canRedo (ed : Editor) : EdResult Bool :=
  if ed.isDestroyed then (.error .EDITOR_DESTROYED, ed)
  else if !ed.options.enableHistory then (.ok false, ed)
  else (.ok ed.wasmDoc.canRedoS, ed)

/-- `toJSON()`: destroyed guard, then the core export. -/
def toJSON (ed : Editor) : EdResult JStr :=
  if ed.isDestroyed then (.error .EDITOR_DESTROYED, ed)
  else (.ok ed.wasmDoc.toJSONS, ed)

/-- `toPlainText()`: destroyed guard, then the core export. -/
def toPlainText (ed : Editor) : EdResult JStr :=
  if ed.isDestroyed then (.error .EDITOR_DESTROYED, ed)
  else (.ok ed.wasmDoc.toPlainTextS, ed)

/-- `fromJSON(json)`: destroyed guard; the falsy-input guard throws
`VALIDATION_ERROR`; a core parse failure is wrapped as
`SERIALIZATION_ERROR`; only a successful parse frees the old document and
installs the new one. -/
def fromJSON (ed : Editor) (json : JStr) : EdResult Unit :=
  if ed.isDestroyed then (.error .EDITOR_DESTROYED, ed)
  else if json.isEmpty then (.error .VALIDATION_ERROR, ed)
  else
    match WasmDoc.fromJSONS json with
    | .error _ => (.error .SERIALIZATION_ERROR, ed)
    | .ok newDoc => (.ok (), { ed with wasmDoc := newDoc })

/-- `fromHTML(html)`: destroyed guard, sanitization through `sanitizeHTML`,
then construct-and-swap with a core failure wrapped as
`SERIALIZATION_ERROR` (the null/undefined guard of the source cannot fire
on an embedded string). -/
def fromHTML (ed : Editor) (html : JStr) : EdResult Unit :=
  if ed.isDestroyed then (.error .EDITOR_DESTROYED, ed)
  else
    match WasmDoc.fromHTMLS (sanitizeHTML html) with
    | .error _ => (.error .SERIALIZATION_ERROR, ed)
    | .ok newDoc => (.ok (), { ed with wasmDoc := newDoc })

/-- `fromMarkdown(markdown)`: destroyed guard, then construct-and-swap with
a core failure wrapped as `SERIALIZATION_ERROR`. -/
def fromMarkdown (ed : Editor) (markdown : JStr) : EdResult Unit :=
  if ed.isDestroyed then (.error .EDITOR_DESTROYED, ed)
  else
    match WasmDoc.fromMarkdownS markdown with
    | .error _ => (.error .SERIALIZATION_ERROR, ed)
    | .ok newDoc => (.ok (), { ed with wasmDoc := newDoc })

/-- `fromPlainText(text)`: destroyed guard, then construct-and-swap (the
core plain-text constructor is total). -/
def fromPlainText (ed : Editor) (text : JStr) : EdResult Unit :=
  if ed.isDestroyed then (.error .EDITOR_DESTROYED, ed)
  else (.ok (), { ed with wasmDoc := WasmDoc.fromTextS text })

/-- `destroy()`: an early silent return when already destroyed, otherwise
cleanup and the flag set; its catch block means it never throws. -/
def destroy (ed : Editor) : EdResult Unit :=
  if ed.isDestroyed then (.ok (), ed)
  else (.ok (), { ed with isDestroyed := true })

/-- `isEditorDestroyed()`: a plain flag read, no guard. -/
def isEditorDestroyed (ed : Editor) : Bool := ed.isDestroyed

/-- `getEditorElement()`: returns `this.editorElement` directly — there is
no destroyed guard, so the call never throws; the element itself is not
modelled. -/
def getEditorElement (ed : Editor) : EdResult Unit := (.ok (), ed)

/-- `getContainer()`: likewise unguarded. -/
def getContainer (ed : Editor) : EdResult Unit := (.ok (), ed)

end Editor

/-! ## utils/wasmManager.ts -/

/-- One call against the process-wide `WasmModuleManager`. -/
inductive WasmMgrOp
  | register
  | unregister
deriving DecidableEq, Repr

/-- `registerInstance` increments the reference count; `unregisterInstance`
decrements it only when it is strictly positive (the count is a JS number,
embedded as an integer). -/
def stepRefCount (r : Int) : WasmMgrOp → Int
  | .register => r + 1
  | .unregister => if 0 < r then r - 1 else r

/-- The reference count after a sequence of register/unregister calls,
starting from the initial state 0. -/
def runRefCount (ops : List WasmMgrOp) : Int :=
  ops.foldl stepRefCount 0

/-! ## Concrete instances -/

/-- A fresh editor that has been destroyed once. -/
def destroyedEd : Editor := ((Editor.mk0 EditorOptions.default).destroy).2

/-- An empty document whose undo stack holds one command and whose internal
state is corrupt, so inverse application fails (spec §4.4 failure
semantics). -/
def corruptDoc : WasmDoc :=
  { core := WasmDoc.new.core
    undoStack := [⟨WasmDoc.new.core, WasmDoc.new.core⟩]
    redoStack := []
    historyLimit := none
    corrupt := true }

/-- A live editor with history enabled over the corrupt document, with no
`onError` callback configured. -/
def corruptEd : Editor :=
  { wasmDoc := corruptDoc
    options := ⟨true, none, false⟩
    isDestroyed := false
    stateSel := (0, 0) }

/-- The corrupt-document editor with an `onError` callback configured. -/
def corruptEdR : Editor := { corruptEd with options := ⟨true, none, true⟩ }

/-- A live editor left at its default options (history NOT enabled) whose
document has nevertheless recorded one mutation on its undo stack. -/
def histEd : Editor :=
  { wasmDoc := WasmDoc.new.insertTextS (strL "a") 0
    options := EditorOptions.default
    isDestroyed := false
    stateSel := (0, 0) }

/-- The same editor with history enabled. -/
def histEdOn : Editor := { histEd with options := ⟨true, none, false⟩ }

/-- A one-character document carrying a bold run, witnessing that the
plain-text round trip loses format runs. -/
def boldDoc : WasmDoc :=
  { core :=
      { text := strL "a"
        runs := [⟨0, 1, .bold, none⟩]
        blocks := [⟨0, 1, .paragraph⟩]
        sel := (0, 0) }
    undoStack := []
    redoStack := []
    historyLimit := none
    corrupt := false }

/-- An editor over a two-character document with a bold run, a link run and
a heading block, exercising the JSON round trip. -/
def richEd : Editor :=
  { wasmDoc :=
      { core :=
          { text := strL "ab"
            runs := [⟨0, 1, .bold, none⟩, ⟨0, 2, .link, some (strL "https://x")⟩]
            blocks := [⟨0, 2, .heading1⟩]
            sel := (0, 0) }
        undoStack := []
        redoStack := []
        historyLimit := none
        corrupt := false }
    options := EditorOptions.default
    isDestroyed := false
    stateSel := (0, 0) }

/-! ## Theorems -/

/-- Every decimal digit maps to a digit character. -/
theorem digitCh_isDigit : ∀ d < 10, (digitCh d).isDigit = true := by decide

/-- Digit characters decode back to their digit. -/
theorem digitVal_digitCh : ∀ d < 10, digitVal (digitCh d) = d := by decide

/-- takeWhile/dropWhile split a digit block exactly at its `|` terminator. -/
theorem takeWhile_digit_block (ds : List Nat) (h : ∀ d ∈ ds, d < 10) (rest : JStr) :
    (ds.map digitCh ++ '|' :: rest).takeWhile Char.isDigit = ds.map digitCh ∧
      (ds.map digitCh ++ '|' :: rest).dropWhile Char.isDigit = '|' :: rest := by
  induction ds with
  | nil => simp [List.takeWhile_cons, List.dropWhile_cons]
  | cons d ds ih =>
    have hd : (digitCh d).isDigit = true := digitCh_isDigit d (h d (by simp))
    have := ih fun x hx => h x (by simp [hx])
    simp [List.takeWhile_cons, List.dropWhile_cons, hd, this.1, this.2]

/-- `readNat` inverts `encodeNat` on any continuation. -/
theorem readNat_encodeNat (n : Nat) (rest : JStr) :
    readNat (encodeNat n ++ rest) = some (n, rest) := by
  have hlt : ∀ d ∈ Nat.digits 10 n, d < 10 := fun d hd =>
    Nat.digits_lt_base (by norm_num) hd
  have hsplit := takeWhile_digit_block (Nat.digits 10 n) hlt rest
  unfold readNat encodeNat
  rw [List.append_assoc]
  simp only [List.singleton_append]
  rw [hsplit.1, hsplit.2]
  simp only [List.map_map]
  have hmap : (Nat.digits 10 n).map (digitVal ∘ digitCh) = Nat.digits 10 n := by
    rw [show Nat.digits 10 n = (Nat.digits 10 n).map id by simp]
    rw [List.map_map]
    exact List.map_congr_left fun d hd => by
      simpa using digitVal_digitCh d (hlt d (by simpa using hd))
  rw [hmap, Nat.ofDigits_digits]

/-- `readChunk` inverts `encodeChunk` on any continuation. -/
theorem readChunk_encodeChunk (t rest : JStr) :
    readChunk (encodeChunk t ++ rest) = some (t, rest) := by
  unfold readChunk encodeChunk
  rw [List.append_assoc, readNat_encodeNat]
  simp only [Option.bind_eq_bind, Option.some_bind]
  rw [if_pos (by simp)]
  rw [List.take_left, List.drop_left]

/-- Tag codes decode to their tag. -/
theorem readTag_encodeTag (tag : FormatTag) : readTag (encodeTag tag) = some tag := by
  cases tag <;> rfl

/-- Block-type codes decode to their type. -/
theorem readKind_encodeKind (k : BlockKind) : readKind (encodeKind k) = some k := by
  cases k <;> rfl

/-- `readRun` inverts `encodeRun` on any continuation. -/
theorem readRun_encodeRun (r : FormatRun) (rest : JStr) :
    readRun (encodeRun r ++ rest) = some (r, rest) := by
  obtain ⟨s, e, tag, v⟩ := r
  cases v with
  | none =>
    unfold readRun encodeRun
    simp only [List.append_assoc, List.cons_append, List.nil_append,
      List.singleton_append]
    rw [readNat_encodeNat]
    simp only [Option.bind_eq_bind, Option.some_bind]
    rw [readNat_encodeNat]
    simp only [Option.some_bind]
    simp [readTag_encodeTag]
  | some v =>
    unfold readRun encodeRun
    simp only [List.append_assoc, List.cons_append, List.nil_append,
      List.singleton_append]
    rw [readNat_encodeNat]
    simp only [Option.bind_eq_bind, Option.some_bind]
    rw [readNat_encodeNat]
    simp only [Option.some_bind]
    simp [readTag_encodeTag, readChunk_encodeChunk]

/-- `readRunsN` inverts the concatenated run encodings. -/
theorem readRunsN_encode (rs : List FormatRun) (rest : JStr) :
    readRunsN rs.length ((rs.map encodeRun).flatten ++ rest) = some (rs, rest) := by
  induction rs generalizing rest with
  | nil => simp [readRunsN]
  | cons r rs ih =>
    simp only [List.map_cons, List.flatten_cons, List.length_cons, List.append_assoc]
    unfold readRunsN
    rw [readRun_encodeRun]
    simp [ih]

/-- `readBlock` inverts `encodeBlock` on any continuation. -/
theorem readBlock_encodeBlock (b : Block) (rest : JStr) :
    readBlock (encodeBlock b ++ rest) = some (b, rest) := by
  obtain ⟨s, e, k⟩ := b
  unfold readBlock encodeBlock
  simp only [List.append_assoc, List.singleton_append]
  rw [readNat_encodeNat]
  simp only [Option.bind_eq_bind, Option.some_bind]
  rw [readNat_encodeNat]
  simp only [Option.some_bind]
  simp [readKind_encodeKind]

/-- `readBlocksN` inverts the concatenated block encodings. -/
theorem readBlocksN_encode (bs : List Block) (rest : JStr) :
    readBlocksN bs.length ((bs.map encodeBlock).flatten ++ rest) = some (bs, rest) := by
  induction bs generalizing rest with
  | nil => simp [readBlocksN]
  | cons b bs ih =>
    simp only [List.map_cons, List.flatten_cons, List.length_cons, List.append_assoc]
    unfold readBlocksN
    rw [readBlock_encodeBlock]
    simp [ih]

/-- The document decoder inverts the document encoder. -/
theorem decodeDocJson_encodeDocJson (dj : DocJson) :
    decodeDocJson (encodeDocJson dj) = some dj := by
  obtain ⟨v, t, rs, bs⟩ := dj
  have hnil : encodeDocJson ⟨v, t, rs, bs⟩ = encodeDocJson ⟨v, t, rs, bs⟩ ++ [] :=
    (List.append_nil _).symm
  rw [hnil]
  unfold decodeDocJson encodeDocJson
  simp only [List.append_assoc]
  rw [readNat_encodeNat]
  simp only [Option.bind_eq_bind, Option.some_bind]
  rw [readChunk_encodeChunk]
  simp only [Option.some_bind]
  rw [readNat_encodeNat]
  simp only [Option.some_bind]
  rw [readRunsN_encode]
  simp only [Option.some_bind]
  rw [readNat_encodeNat]
  simp only [Option.some_bind]
  rw [readBlocksN_encode]
  simp

/-- Core-level JSON round trip: decoding an export reconstructs exactly the
dumped text, runs and blocks with fresh selection and history. -/
theorem fromJSONS_toJSONS (d : WasmDoc) :
    WasmDoc.fromJSONS d.toJSONS =
      .ok
        { core :=
            { text := d.core.text, runs := d.core.runs, blocks := d.core.blocks
              sel := (0, 0) }
          undoStack := []
          redoStack := []
          historyLimit := none
          corrupt := false } := by
  unfold WasmDoc.fromJSONS WasmDoc.toJSONS
  rw [decodeDocJson_encodeDocJson]
  simp

/-- A JSON export is never the empty string. -/
theorem toJSONS_ne_nil (d : WasmDoc) : d.toJSONS.isEmpty = false := by
  unfold WasmDoc.toJSONS encodeDocJson encodeNat
  simp [List.isEmpty_iff]

/-- C2: the JSON round trip is exact — `fromJSON(toJSON(d))` succeeds and
reproduces identical text, identical format runs, identical blocks and
identical length — and this exactness is JSON's alone among the
serialization formats: the plain-text round trip already fails to preserve
format runs. -/
theorem json_roundTrip_exact (ed : Editor) (hd : ed.isDestroyed = false) :
    ed.toJSON = (.ok ed.wasmDoc.toJSONS, ed) ∧
      (∃ d2, ed.fromJSON ed.wasmDoc.toJSONS = (.ok (), { ed with wasmDoc := d2 }) ∧
        d2.getContentS = ed.wasmDoc.getContentS ∧
        d2.core.runs = ed.wasmDoc.core.runs ∧
        d2.core.blocks = ed.wasmDoc.core.blocks ∧
        d2.getLengthS = ed.wasmDoc.getLengthS) ∧
      (WasmDoc.fromTextS (WasmDoc.toPlainTextS boldDoc)).core.runs ≠ boldDoc.core.runs := by
  refine ⟨?_, ?_, by decide⟩
  · unfold Editor.toJSON
    rw [hd]
    rfl
  · refine ⟨{ core := { text := ed.wasmDoc.core.text, runs := ed.wasmDoc.core.runs
                        blocks := ed.wasmDoc.core.blocks, sel := (0, 0) }
              undoStack := [], redoStack := [], historyLimit := none
              corrupt := false }, ?_, rfl, rfl, rfl, rfl⟩
    unfold Editor.fromJSON
    rw [hd]
    simp only [toJSONS_ne_nil, Bool.false_eq_true, if_false]
    rw [fromJSONS_toJSONS]

/-- C2 witness: the round trip on the two-character document with a bold
run, a link run and a heading block. -/
theorem json_roundTrip_exact_witness :
    richEd.toJSON = (.ok richEd.wasmDoc.toJSONS, richEd) ∧
      (∃ d2, richEd.fromJSON richEd.wasmDoc.toJSONS = (.ok (), { richEd with wasmDoc := d2 }) ∧
        d2.getContentS = richEd.wasmDoc.getContentS ∧
        d2.core.runs = richEd.wasmDoc.core.runs ∧
        d2.core.blocks = richEd.wasmDoc.core.blocks ∧
        d2.getLengthS = richEd.wasmDoc.getLengthS) ∧
      (WasmDoc.fromTextS (WasmDoc.toPlainTextS boldDoc)).core.runs ≠ boldDoc.core.runs :=
  json_roundTrip_exact richEd rfl

/-- The fold preserving nonnegativity of the reference count. -/
theorem foldl_stepRefCount_nonneg (ops : List WasmMgrOp) :
    ∀ r : Int, 0 ≤ r → 0 ≤ ops.foldl stepRefCount r := by
  induction ops with
  | nil => intro r h; simpa using h
  | cons op rest ih =>
    intro r h
    refine ih _ ?_
    cases op with
    | register => simp only [stepRefCount]; omega
    | unregister => simp only [stepRefCount]; split <;> omega

/-- C10: the process-wide WASM reference count never goes negative —
starting from 0, `registerInstance` adds one, `unregisterInstance`
subtracts one only from a strictly positive count (at zero it stays zero),
so every finite call sequence leaves the count nonnegative. -/
theorem wasmManager_refCount_nonneg :
    (∀ ops : List WasmMgrOp, 0 ≤ runRefCount ops) ∧
      (∀ r : Int, stepRefCount r .register = r + 1) ∧
      stepRefCount 0 .unregister = 0 := by
  refine ⟨fun ops => foldl_stepRefCount_nonneg ops 0 le_rfl, fun r => rfl, rfl⟩

/-- C1: a call rejected by argument validation on a live editor — insertText
with an out-of-bounds position, deleteRange with a malformed range,
setSelection with an out-of-bounds anchor or focus — throws the matching
error and returns the editor unchanged: no mutating call reaches the
underlying WasmDocument, so text, format, block and history state are
untouched. -/
theorem validated_mutators_atomic (ed : Editor) (t : JStr) (pos s e a f : Int)
    (hd : ed.isDestroyed = false)
    (hpos : pos < 0 ∨ (ed.wasmDoc.getLengthS : Int) < pos)
    (hrange : s < 0 ∨ e < s ∨ (ed.wasmDoc.getLengthS : Int) < e)
    (hsel : a < 0 ∨ (ed.wasmDoc.getLengthS : Int) < a ∨ f < 0 ∨
      (ed.wasmDoc.getLengthS : Int) < f) :
    ed.insertText t pos = (.error .INVALID_POSITION, ed) ∧
      ed.deleteRange s e = (.error .INVALID_RANGE, ed) ∧
      ed.setSelection a f = (.error .INVALID_SELECTION, ed) := by
  refine ⟨?_, ?_, ?_⟩
  · unfold Editor.insertText
    rw [hd]
    simp only [Bool.false_eq_true, if_false]
    exact if_pos hpos
  · unfold Editor.deleteRange
    rw [hd]
    simp only [Bool.false_eq_true, if_false]
    exact if_pos hrange
  · unfold Editor.setSelection
    rw [hd]
    simp only [Bool.false_eq_true, if_false]
    exact if_pos hsel

/-- C1 witness: a fresh empty editor rejects insertText at -1, deleteRange
(2,1) and setSelection (5,0) without touching any state. -/
theorem validated_mutators_atomic_witness :
    (Editor.mk0 EditorOptions.default).insertText (strL "x") (-1) =
        (.error .INVALID_POSITION, Editor.mk0 EditorOptions.default) ∧
      (Editor.mk0 EditorOptions.default).deleteRange 2 1 =
        (.error .INVALID_RANGE, Editor.mk0 EditorOptions.default) ∧
      (Editor.mk0 EditorOptions.default).setSelection 5 0 =
        (.error .INVALID_SELECTION, Editor.mk0 EditorOptions.default) :=
  validated_mutators_atomic (Editor.mk0 EditorOptions.default) (strL "x")
    (-1) 2 1 5 0 rfl (by decide) (by decide) (by decide)

/-- C3: on a live editor, insertText fails with INVALID_POSITION exactly
when the position lies outside `[0, getLength()]`; with a valid position and
a configured maxLength it fails with MAX_LENGTH_EXCEEDED exactly when
`getLength() + text.length` exceeds the cap; otherwise the text is spliced
into the document at the position. -/
theorem insertText_contract (ed : Editor) (t : JStr) (pos : Int)
    (hd : ed.isDestroyed = false) :
    (ed.insertText t pos = (.error .INVALID_POSITION, ed) ↔
        (pos < 0 ∨ (ed.wasmDoc.getLengthS : Int) < pos)) ∧
      (∀ m, ed.options.maxLength = some m →
        ¬(pos < 0 ∨ (ed.wasmDoc.getLengthS : Int) < pos) →
        (ed.insertText t pos = (.error .MAX_LENGTH_EXCEEDED, ed) ↔
          m < ed.wasmDoc.getLengthS + t.length)) ∧
      (¬(pos < 0 ∨ (ed.wasmDoc.getLengthS : Int) < pos) →
        (∀ m, ed.options.maxLength = some m → ed.wasmDoc.getLengthS + t.length ≤ m) →
        ed.insertText t pos =
            (.ok (), { ed with wasmDoc := ed.wasmDoc.insertTextS t pos.toNat }) ∧
          (ed.wasmDoc.insertTextS t pos.toNat).getContentS =
            ed.wasmDoc.getContentS.take pos.toNat ++ t ++
              ed.wasmDoc.getContentS.drop pos.toNat) := by
  refine ⟨?_, ?_, ?_⟩
  · constructor
    · intro h
      by_contra hpos
      unfold Editor.insertText at h
      rw [hd] at h
      simp only [Bool.false_eq_true, if_false] at h
      rw [if_neg hpos] at h
      cases hml : ed.options.maxLength with
      | none => rw [hml] at h; simp at h
      | some m =>
        rw [hml] at h
        simp only at h
        split_ifs at h with hm <;> simp at h
    · intro hpos
      unfold Editor.insertText
      rw [hd]
      simp only [Bool.false_eq_true, if_false]
      exact if_pos hpos
  · intro m hml hpos
    unfold Editor.insertText
    rw [hd]
    simp only [Bool.false_eq_true, if_false]
    rw [if_neg hpos, hml]
    simp only
    split_ifs with hm <;> simp [hm]
  · intro hpos hmax
    refine ⟨?_, by simp [WasmDoc.insertTextS, WasmDoc.pushHistory, WasmDoc.getContentS]⟩
    unfold Editor.insertText
    rw [hd]
    simp only [Bool.false_eq_true, if_false]
    rw [if_neg hpos]
    cases hml : ed.options.maxLength with
    | none => rfl
    | some m =>
      simp only
      rw [if_neg (not_lt.mpr (hmax m hml))]

/-- C3 witness: an editor capped at 2 characters accepts no 3-character
insert at position 0, and an uncapped editor splices the text in. -/
theorem insertText_contract_witness :
    (Editor.mk0 ⟨false, some 2, false⟩).insertText (strL "abc") 0 =
        (.error .MAX_LENGTH_EXCEEDED, Editor.mk0 ⟨false, some 2, false⟩) ∧
      ((Editor.mk0 EditorOptions.default).wasmDoc.insertTextS (strL "hi") 0).getContentS =
        strL "hi" :=
  ⟨((insertText_contract (Editor.mk0 ⟨false, some 2, false⟩) (strL "abc") 0 rfl).2.1
      2 rfl (by decide)).mpr (by decide),
    by
      have h := (insertText_contract (Editor.mk0 EditorOptions.default) (strL "hi") 0 rfl).2.2
        (by decide) (by intro m hm; simp [Editor.mk0, EditorOptions.default] at hm)
      simpa using h.2⟩

/-- C5 counterexample: on an already-destroyed editor, `getEditorElement()`
succeeds (no guard in the source) and a second `destroy()` silently
no-ops — so it is false that every further call fails with an
EditorDestroyed-class error, and false that destroy can be invoked only
once. -/
theorem destroyed_calls_counterexample :
    destroyedEd.isDestroyed = true ∧
      destroyedEd.getEditorElement = (.ok (), destroyedEd) ∧
      destroyedEd.destroy = (.ok (), destroyedEd) := by
  refine ⟨rfl, rfl, ?_⟩
  simp [Editor.destroy, destroyedEd, Editor.mk0]

/-- C5 amended: after destroy(), every document-facing call (insertText,
deleteRange, getContent, getLength, applyFormat, removeFormat,
setSelection, getSelection, undo, redo, canUndo, canRedo, toJSON,
toPlainText, the four imports) fails with an EDITOR_DESTROYED error and
changes nothing; the element accessors, `isEditorDestroyed` and a repeated
`destroy()` do not throw (destroy is idempotent rather than once-only). -/
theorem destroyed_guard (ed : Editor) (hd : ed.isDestroyed = true) :
    (∀ t p, ed.insertText t p = (.error .EDITOR_DESTROYED, ed)) ∧
      (∀ s e, ed.deleteRange s e = (.error .EDITOR_DESTROYED, ed)) ∧
      ed.getContent = (.error .EDITOR_DESTROYED, ed) ∧
      ed.getLength = (.error .EDITOR_DESTROYED, ed) ∧
      (∀ f s e v, ed.applyFormat f s e v = (.error .EDITOR_DESTROYED, ed)) ∧
      (∀ f s e, ed.removeFormat f s e = (.error .EDITOR_DESTROYED, ed)) ∧
      (∀ a f, ed.setSelection a f = (.error .EDITOR_DESTROYED, ed)) ∧
      ed.getSelection = (.error .EDITOR_DESTROYED, ed) ∧
      ed.undo = ⟨.error .EDITOR_DESTROYED, ed, []⟩ ∧
      ed.redo = ⟨.error .EDITOR_DESTROYED, ed, []⟩ ∧
      ed.canUndo = (.error .EDITOR_DESTROYED, ed) ∧
      ed.canRedo = (.error .EDITOR_DESTROYED, ed) ∧
      ed.toJSON = (.error .EDITOR_DESTROYED, ed) ∧
      ed.toPlainText = (.error .EDITOR_DESTROYED, ed) ∧
      (∀ s, ed.fromJSON s = (.error .EDITOR_DESTROYED, ed)) ∧
      (∀ s, ed.fromHTML s = (.error .EDITOR_DESTROYED, ed)) ∧
      (∀ s, ed.fromMarkdown s = (.error .EDITOR_DESTROYED, ed)) ∧
      (∀ s, ed.fromPlainText s = (.error .EDITOR_DESTROYED, ed)) ∧
      ed.destroy = (.ok (), ed) ∧
      ed.getEditorElement = (.ok (), ed) ∧
      ed.getContainer = (.ok (), ed) ∧
      ed.isEditorDestroyed = true :=
  ⟨fun t p => by simp [Editor.insertText, hd],
    fun s e => by simp [Editor.deleteRange, hd],
    by simp [Editor.getContent, hd],
    by simp [Editor.getLength, hd],
    fun f s e v => by simp [Editor.applyFormat, hd],
    fun f s e => by simp [Editor.removeFormat, hd],
    fun a f => by simp [Editor.setSelection, hd],
    by simp [Editor.getSelection, hd],
    by simp [Editor.undo, hd],
    by simp [Editor.redo, hd],
    by simp [Editor.canUndo, hd],
    by simp [Editor.canRedo, hd],
    by simp [Editor.toJSON, hd],
    by simp [Editor.toPlainText, hd],
    fun s => by simp [Editor.fromJSON, hd],
    fun s => by simp [Editor.fromHTML, hd],
    fun s => by simp [Editor.fromMarkdown, hd],
    fun s => by simp [Editor.fromPlainText, hd],
    by simp [Editor.destroy, hd],
    rfl, rfl, hd⟩

/-- C5 witness: the destroyed editor rejects an insert with
EDITOR_DESTROYED. -/
theorem destroyed_guard_witness :
    destroyedEd.insertText (strL "x") 0 = (.error .EDITOR_DESTROYED, destroyedEd) :=
  (destroyed_guard destroyedEd rfl).1 (strL "x") 0

/-- C6 counterexample: on a live, history-enabled editor whose inner
inverse application fails (`undoS` errors) with no onError callback
configured, `undo()` returns normally and reports nothing: the failure is
neither surfaced to the caller nor delivered anywhere — refuting that an
inverse-application failure is a fatal HistoryError surfaced to the
caller. -/
theorem undo_failure_swallowed_counterexample :
    corruptEd.wasmDoc.canUndoS = true ∧
      corruptEd.wasmDoc.undoS = .error () ∧
      corruptEd.undo = ⟨.ok (), corruptEd, []⟩ := by
  refine ⟨rfl, rfl, ?_⟩
  rfl

/-- C6 amended: on a live editor undo()/redo() never throw — empty stack
(and disabled history) are silent no-ops, and when the inner inverse or
forward application fails the error is caught and wrapped as a
HISTORY_ERROR delivered only to the configured onError callback (nothing is
delivered when none is configured). -/
theorem undo_redo_failure_semantics (ed : Editor) (hd : ed.isDestroyed = false) :
    ed.undo.result = .ok () ∧
      ed.redo.result = .ok () ∧
      (ed.options.enableHistory = true → ed.wasmDoc.canUndoS = false →
        ed.undo = ⟨.ok (), ed, []⟩) ∧
      (ed.options.enableHistory = true → ed.wasmDoc.canRedoS = false →
        ed.redo = ⟨.ok (), ed, []⟩) ∧
      (ed.options.enableHistory = true → ed.wasmDoc.canUndoS = true →
        ed.wasmDoc.undoS = .error () →
        ed.undo =
          ⟨.ok (), ed, if ed.options.onErrorConfigured then [.HISTORY_ERROR] else []⟩) ∧
      (ed.options.enableHistory = true → ed.wasmDoc.canRedoS = true →
        ed.wasmDoc.redoS = .error () →
        ed.redo =
          ⟨.ok (), ed, if ed.options.onErrorConfigured then [.HISTORY_ERROR] else []⟩) := by
  refine ⟨?_, ?_, ?_, ?_, ?_, ?_⟩
  · unfold Editor.undo
    rw [hd]
    simp only [Bool.false_eq_true, if_false]
    split
    · rfl
    · split
      · split <;> rfl
      · rfl
  · unfold Editor.redo
    rw [hd]
    simp only [Bool.false_eq_true, if_false]
    split
    · rfl
    · split
      · split <;> rfl
      · rfl
  · intro he hcu
    unfold Editor.undo
    rw [hd]
    simp [he, hcu]
  · intro he hcr
    unfold Editor.redo
    rw [hd]
    simp [he, hcr]
  · intro he hcu hu
    unfold Editor.undo
    rw [hd]
    simp [he, hcu, hu]
  · intro he hcr hr
    unfold Editor.redo
    rw [hd]
    simp [he, hcr, hr]

/-- C6 witness: with an onError callback configured, the failing inner undo
is reported there as a HISTORY_ERROR while undo() still returns normally. -/
theorem undo_redo_failure_semantics_witness :
    corruptEdR.undo = ⟨.ok (), corruptEdR, [.HISTORY_ERROR]⟩ := by
  have h := (undo_redo_failure_semantics corruptEdR rfl).2.2.2.2.1 rfl rfl rfl
  simpa using h

/-- C7 counterexample: with history not enabled (the default
configuration), canUndo() returns false on an editor whose document has a
non-empty undo stack — refuting that canUndo reflects stack emptiness
regardless of configuration. -/
theorem canUndo_config_counterexample :
    histEd.wasmDoc.undoStack ≠ [] ∧ histEd.canUndo = (.ok false, histEd) := by
  constructor
  · decide
  · rfl

/-- C7 amended: canUndo()/canRedo() change no state; when `enableHistory`
is set they are pure stack-emptiness checks, and when it is not set (the
default) they return false regardless of the stacks. -/
theorem canUndo_canRedo_stack_checks (ed : Editor) (hd : ed.isDestroyed = false) :
    (ed.options.enableHistory = true →
      ed.canUndo = (.ok (!ed.wasmDoc.undoStack.isEmpty), ed) ∧
        ed.canRedo = (.ok (!ed.wasmDoc.redoStack.isEmpty), ed)) ∧
      (ed.options.enableHistory = false →
        ed.canUndo = (.ok false, ed) ∧ ed.canRedo = (.ok false, ed)) := by
  constructor <;> intro he <;>
    exact ⟨by simp [Editor.canUndo, WasmDoc.canUndoS, hd, he],
      by simp [Editor.canRedo, WasmDoc.canRedoS, hd, he]⟩

/-- C7 witness: the history-enabled editor with one recorded mutation
reports canUndo = true and is unchanged by the query. -/
theorem canUndo_canRedo_stack_checks_witness :
    histEdOn.canUndo = (.ok true, histEdOn) := by
  have h := ((canUndo_canRedo_stack_checks histEdOn rfl).1 rfl).1
  rw [h]
  decide

/-- C8 counterexample: applying bold over `[0, 5)` on an empty document
(length 0, so the range is out of bounds) fails with an error of code
INVALID_FORMAT, not INVALID_RANGE, and likewise for removeFormat —
refuting the claimed InvalidRange error. -/
theorem format_range_counterexample :
    (Editor.mk0 EditorOptions.default).applyFormat .bold 0 5 none =
        (.error .INVALID_FORMAT, Editor.mk0 EditorOptions.default) ∧
      (Editor.mk0 EditorOptions.default).removeFormat .bold 0 5 =
        (.error .INVALID_FORMAT, Editor.mk0 EditorOptions.default) ∧
      ErrCode.INVALID_FORMAT ≠ ErrCode.INVALID_RANGE := by
  refine ⟨?_, ?_, by decide⟩ <;> decide

/-- C8 amended: on a live editor, applyFormat (tag-only path) and
removeFormat with an out-of-bounds range fail — but with an EditorError of
code INVALID_FORMAT (the catch blocks wrap the document-level range failure),
not INVALID_RANGE — and leave the editor unchanged. -/
theorem format_range_errors (ed : Editor) (tag : FormatTag) (s e : Int)
    (hd : ed.isDestroyed = false)
    (hr : ed.wasmDoc.validRange s e = false)
    (ht : Editor.valueFormats.contains tag = false) :
    ed.applyFormat tag s e none = (.error .INVALID_FORMAT, ed) ∧
      ed.removeFormat tag s e = (.error .INVALID_FORMAT, ed) := by
  constructor
  · unfold Editor.applyFormat
    rw [hd]
    rw [if_neg (by simp [ht])]
    simp [WasmDoc.applyFormatS, hr]
  · unfold Editor.removeFormat
    rw [hd]
    simp [WasmDoc.removeFormatS, hr]

/-- C8 witness: italic over `[0, 3)` on the empty editor fails with
INVALID_FORMAT on both calls. -/
theorem format_range_errors_witness :
    (Editor.mk0 EditorOptions.default).applyFormat .italic 0 3 none =
        (.error .INVALID_FORMAT, Editor.mk0 EditorOptions.default) ∧
      (Editor.mk0 EditorOptions.default).removeFormat .italic 0 3 =
        (.error .INVALID_FORMAT, Editor.mk0 EditorOptions.default) :=
  format_range_errors (Editor.mk0 EditorOptions.default) .italic 0 3 rfl
    (by decide) (by decide)

/-- C4 counterexample: `fromJSON("")` — malformed (empty) input — is
rejected with an error of code VALIDATION_ERROR, not SERIALIZATION_ERROR,
refuting the claim that each import rejects malformed input with a
SerializationError. -/
theorem fromJSON_empty_counterexample :
    (Editor.mk0 EditorOptions.default).fromJSON [] =
        (.error .VALIDATION_ERROR, Editor.mk0 EditorOptions.default) ∧
      ErrCode.VALIDATION_ERROR ≠ ErrCode.SERIALIZATION_ERROR :=
  ⟨rfl, by decide⟩

/-- C4 amended: each import constructs a brand-new document that replaces
(never merges with) the prior one, and on any failure the previous document
remains current and unchanged; malformed input past the initial falsy guard
is rejected with SERIALIZATION_ERROR, but fromJSON rejects empty input with
VALIDATION_ERROR. -/
theorem import_atomic_replacement (ed : Editor) (s : JStr) (hd : ed.isDestroyed = false) :
    (s.isEmpty = true → ed.fromJSON s = (.error .VALIDATION_ERROR, ed)) ∧
      (s.isEmpty = false → WasmDoc.fromJSONS s = .error () →
        ed.fromJSON s = (.error .SERIALIZATION_ERROR, ed)) ∧
      (∀ d, s.isEmpty = false → WasmDoc.fromJSONS s = .ok d →
        ed.fromJSON s = (.ok (), { ed with wasmDoc := d })) ∧
      (WasmDoc.fromHTMLS (sanitizeHTML s) = .error () →
        ed.fromHTML s = (.error .SERIALIZATION_ERROR, ed)) ∧
      (∀ d, WasmDoc.fromHTMLS (sanitizeHTML s) = .ok d →
        ed.fromHTML s = (.ok (), { ed with wasmDoc := d })) ∧
      (∀ d, WasmDoc.fromMarkdownS s = .ok d →
        ed.fromMarkdown s = (.ok (), { ed with wasmDoc := d })) ∧
      ed.fromPlainText s = (.ok (), { ed with wasmDoc := WasmDoc.fromTextS s }) := by
  refine ⟨?_, ?_, ?_, ?_, ?_, ?_, ?_⟩
  · intro he
    unfold Editor.fromJSON
    rw [hd]
    simp [he]
  · intro he hj
    unfold Editor.fromJSON
    rw [hd]
    simp [he, hj]
  · intro d he hj
    unfold Editor.fromJSON
    rw [hd]
    simp [he, hj]
  · intro hh
    unfold Editor.fromHTML
    rw [hd]
    simp [hh]
  · intro d hh
    unfold Editor.fromHTML
    rw [hd]
    simp [hh]
  · intro d hm
    unfold Editor.fromMarkdown
    rw [hd]
    simp [hm]
  · unfold Editor.fromPlainText
    rw [hd]
    simp

/-- C4 witness: a malformed non-empty JSON payload is rejected with
SERIALIZATION_ERROR leaving the editor untouched; an HTML import sanitizes
the markup and installs the freshly constructed document; an HTML payload
whose sanitized form the core rejects is refused with SERIALIZATION_ERROR
leaving the editor untouched; a plain-text import installs the freshly
constructed document. -/
theorem import_atomic_replacement_witness :
    (Editor.mk0 EditorOptions.default).fromJSON (strL "x") =
        (.error .SERIALIZATION_ERROR, Editor.mk0 EditorOptions.default) ∧
      (Editor.mk0 EditorOptions.default).fromHTML (strL "<p>hi</p>") =
        (.ok (), { Editor.mk0 EditorOptions.default with
                    wasmDoc := WasmDoc.fromTextS (strL "hi") }) ∧
      (Editor.mk0 EditorOptions.default).fromHTML (strL "<x") =
        (.error .SERIALIZATION_ERROR, Editor.mk0 EditorOptions.default) ∧
      (Editor.mk0 EditorOptions.default).fromPlainText (strL "hi") =
        (.ok (), { Editor.mk0 EditorOptions.default with
                    wasmDoc := WasmDoc.fromTextS (strL "hi") }) :=
  ⟨(import_atomic_replacement (Editor.mk0 EditorOptions.default) (strL "x") rfl).2.1
      (by decide) (by decide),
    (import_atomic_replacement (Editor.mk0 EditorOptions.default)
        (strL "<p>hi</p>") rfl).2.2.2.2.1
      (WasmDoc.fromTextS (strL "hi")) (by decide),
    (import_atomic_replacement (Editor.mk0 EditorOptions.default)
        (strL "<x") rfl).2.2.2.1 (by decide),
    (import_atomic_replacement (Editor.mk0 EditorOptions.default) (strL "hi") rfl).2.2.2.2.2.2⟩

/-- C9: value-format validation — a missing value, a color rejected by
validateColor or a URL rejected by sanitizeURL makes applyFormat throw
INVALID_FORMAT with the document untouched; sanitizeURL rejects every URL
whose trimmed lowercase form starts with javascript:, data:, vbscript: or
file:, and accepts only URLs resolving to the http/https/mailto/tel
protocols or colon-free relative URLs; validateColor accepts only hex,
in-range rgb/rgba, in-range hsl/hsla, or fixed named colors. -/
theorem value_format_validation (ed : Editor) (fmt : FormatTag) (s e : Int)
    (url color : JStr) (hd : ed.isDestroyed = false) :
    (Editor.valueFormats.contains fmt = true →
      ed.applyFormat fmt s e none = (.error .INVALID_FORMAT, ed)) ∧
      ((fmt = .textColor ∨ fmt = .backgroundColor) → validateColor color = none →
        ed.applyFormat fmt s e (some color) = (.error .INVALID_FORMAT, ed)) ∧
      (sanitizeURL url = none →
        ed.applyFormat .link s e (some url) = (.error .INVALID_FORMAT, ed)) ∧
      (((strL "javascript:").isPrefixOf (lowerList (trimList url))
          || (strL "data:").isPrefixOf (lowerList (trimList url))
          || (strL "vbscript:").isPrefixOf (lowerList (trimList url))
          || (strL "file:").isPrefixOf (lowerList (trimList url))) = true →
        sanitizeURL url = none) ∧
      (∀ out, sanitizeURL url = some out →
        (∃ parts, urlParse (trimList url) = some parts ∧
          SAFE_URL_PROTOCOLS.contains parts.protocol = true ∧ out = parts.href) ∨
        (urlParse (trimList url) = none ∧
          (lowerList (trimList url)).contains ':' = false ∧ out = trimList url)) ∧
      (∀ out, validateColor color = some out →
        out = lowerList (trimList color) ∧
        (isHexColor out = true ∨
          (∃ r g b, rgbMatch out = some (r, g, b) ∧ r ≤ 255 ∧ g ≤ 255 ∧ b ≤ 255) ∨
          (∃ h sa l, hslMatch out = some (h, sa, l) ∧ h ≤ 360 ∧ sa ≤ 100 ∧ l ≤ 100) ∨
          namedColors.contains out = true)) := by
  refine ⟨?_, ?_, ?_, ?_, ?_, ?_⟩
  · intro hf
    unfold Editor.applyFormat
    rw [hd]
    simp only [Bool.false_eq_true, if_false]
    rw [if_pos hf]
  · intro hfc hvc
    have hcont : Editor.valueFormats.contains fmt = true := by
      rcases hfc with h | h <;> subst h <;> decide
    have hsan :
        (if fmt = FormatTag.textColor ∨ fmt = FormatTag.backgroundColor then
          validateColor color
         else if fmt = FormatTag.link then sanitizeURL color else some color) = none := by
      rw [if_pos hfc, hvc]
    unfold Editor.applyFormat
    rw [hd]
    simp only [Bool.false_eq_true, if_false]
    rw [if_pos hcont]
    by_cases hce : color.isEmpty
    · simp [hce]
    · simp [hce, hsan]
  · intro hsu
    unfold Editor.applyFormat
    rw [hd]
    simp only [Bool.false_eq_true, if_false]
    rw [if_pos (by decide : Editor.valueFormats.contains FormatTag.link = true)]
    by_cases hce : url.isEmpty
    · simp [hce]
    · simp [hce, hsu]
  · intro h
    by_cases h1 : url.isEmpty
    · simp [sanitizeURL, h1]
    · by_cases h2 : (trimList url).isEmpty
      · simp [sanitizeURL, h1, h2]
      · simp [sanitizeURL, h1, h2, h]
  · intro out hout
    by_cases h1 : url.isEmpty
    · simp [sanitizeURL, h1] at hout
    · by_cases h2 : (trimList url).isEmpty
      · simp [sanitizeURL, h1, h2] at hout
      · by_cases h3 :
          ((strL "javascript:").isPrefixOf (lowerList (trimList url))
            || (strL "data:").isPrefixOf (lowerList (trimList url))
            || (strL "vbscript:").isPrefixOf (lowerList (trimList url))
            || (strL "file:").isPrefixOf (lowerList (trimList url))) = true
        · simp [sanitizeURL, h1, h2, h3] at hout
        · cases hp : urlParse (trimList url) with
          | some parts =>
            rw [sanitizeURL] at hout
            simp only [h1, h2, h3, hp, Bool.false_eq_true, if_false] at hout
            split_ifs at hout with hc
            exact Or.inl ⟨parts, rfl, by simpa using hc, by simpa using hout.symm⟩
          | none =>
            rw [sanitizeURL] at hout
            simp only [h1, h2, h3, hp, Bool.false_eq_true, if_false] at hout
            split_ifs at hout with hc
            exact Or.inr ⟨rfl, by simpa using hc, by simpa using hout.symm⟩
  · intro out hout
    by_cases h1 : color.isEmpty
    · simp [validateColor, h1] at hout
    · by_cases h2 : (lowerList (trimList color)).isEmpty
      · simp [validateColor, h1, h2] at hout
      · by_cases h3 : isHexColor (lowerList (trimList color)) = true
        · rw [validateColor] at hout
          simp only [h1, h2, h3, Bool.false_eq_true, if_false, if_true,
            Option.some.injEq] at hout
          exact ⟨hout.symm, Or.inl (hout ▸ h3)⟩
        · cases hr : rgbMatch (lowerList (trimList color)) with
          | some t =>
            obtain ⟨r, g, b⟩ := t
            rw [validateColor] at hout
            simp only [h1, h2, h3, hr, Bool.false_eq_true, if_false] at hout
            split_ifs at hout with hrange
            simp only [Bool.and_eq_true, decide_eq_true_eq] at hrange
            have hco : lowerList (trimList color) = out := by simpa using hout
            subst hco
            exact ⟨rfl, Or.inr (Or.inl ⟨r, g, b, hr, by omega, by omega, by omega⟩)⟩
          | none =>
            cases hh : hslMatch (lowerList (trimList color)) with
            | some t =>
              obtain ⟨hv, sa, lv⟩ := t
              rw [validateColor] at hout
              simp only [h1, h2, h3, hr, hh, Bool.false_eq_true, if_false] at hout
              split_ifs at hout with hrange
              simp only [Bool.and_eq_true, decide_eq_true_eq] at hrange
              have hco : lowerList (trimList color) = out := by simpa using hout
              subst hco
              exact ⟨rfl,
                Or.inr (Or.inr (Or.inl ⟨hv, sa, lv, hh, by omega, by omega, by omega⟩))⟩
            | none =>
              rw [validateColor] at hout
              simp only [h1, h2, h3, hr, hh, Bool.false_eq_true, if_false] at hout
              split_ifs at hout with hn
              have hco : lowerList (trimList color) = out := by simpa using hout
              subst hco
              exact ⟨rfl, Or.inr (Or.inr (Or.inr (by simpa using hn)))⟩

/-- C9 witness: the javascript: URL is rejected by sanitizeURL, so applying
it as a link fails with INVALID_FORMAT on an untouched editor; the named
color red passes validateColor. -/
theorem value_format_validation_witness :
    (Editor.mk0 EditorOptions.default).applyFormat .link 0 1
        (some (strL "javascript:alert(1)")) =
        (.error .INVALID_FORMAT, Editor.mk0 EditorOptions.default) ∧
      sanitizeURL (strL "javascript:alert(1)") = none :=
  ⟨(value_format_validation (Editor.mk0 EditorOptions.default) .link 0 1
      (strL "javascript:alert(1)") (strL "red") rfl).2.2.1 (by decide),
    (value_format_validation (Editor.mk0 EditorOptions.default) .link 0 1
      (strL "javascript:alert(1)") (strL "red") rfl).2.2.2.1 (by decide)⟩

end RTE
